import Mathlib

/-!
Verification development for the docsign repository (FastAPI + SQLAlchemy +
pypdf/reportlab).  The application state (rows of the `documents`, `signers`,
`fields` and `audit_logs` tables plus the byte store behind
`app/services/storage.py` in local mode, where `IS_VERCEL = False`) is made
explicit, and each HTTP route of `app/routers/documents.py` and
`app/routers/signing.py` becomes a function from its arguments and the current
state to a result and the next state.  External nondeterminism (uuid tokens,
upload filenames, clock readings) is passed in as arguments.  Timestamp
columns filled by `func.now()` server defaults and surrogate ids of audit rows
are not consulted by any route and are omitted; `signed_at` is kept because
`sign_document` reads and writes it.

The compositor `sign_pdf_bytes` of `app/services/pdf_service.py` is modelled
separately as a pure function on an abstract paged document: a page is its
mediabox size plus a list of drawing commands, and `merge_page` appends the
overlay's commands on top of the existing content.  The base64 payload decode
plus `ImageReader`/`drawImage` pipeline, which lives in external libraries, is
a parameter `dec : String -> Option String`; the `split(",", 1)` step that
precedes it is in the source and is modelled concretely.

One fact about the source shapes several results below: line 111 of
`app/routers/signing.py` reads `os.path.join(SIGNED_DOCS_DIR, ...)`, and the
name `SIGNED_DOCS_DIR` is defined nowhere in the repository (the storage
module defines `LOCAL_SIGNED_DIR`).  Python therefore raises `NameError`
there, which is the first statement executed after `all_signed` is found true
and after `document.status` has been assigned `COMPLETED` in the session.
The session was created with `autocommit=False` and the only commit before
that point (line 97) covered the signer flip, the signature artifact upload
and the `SIGNED` audit row; the unhandled exception propagates out of the
route and `get_db`'s `finally: db.close()` rolls the uncommitted status
change back.  Hence the finalize branch is modelled as: keep the committed
effects, report an error, leave the document row untouched.
-/

/-- Lifecycle status of a document (`DocumentStatus` in `app/models.py`). -/
inductive DocumentStatus
  | DRAFT
  | SENT
  | COMPLETED
deriving DecidableEq, Repr

/-- Field kind (`FieldType` in `app/models.py`). -/
inductive FieldType
  | SIGNATURE
  | DATE
deriving DecidableEq, Repr

/-- A row of the `documents` table. -/
structure Document where
  id : Nat
  user_id : Nat
  filename : String
  file_path : String
  status : DocumentStatus
deriving DecidableEq, Repr

/-- A row of the `signers` table.  `signed_at` is a clock reading
(`datetime.utcnow()` modelled as a natural number), null until signed. -/
structure Signer where
  id : Nat
  document_id : Nat
  email : String
  name : String
  token : String
  has_signed : Bool
  signed_at : Option Nat
deriving DecidableEq, Repr

/-- A row of the `fields` table. -/
structure DocField where
  id : Nat
  document_id : Nat
  signer_id : Nat
  page_number : Int
  x_coordinate : Int
  y_coordinate : Int
  type : FieldType
  include_name : Bool
  include_date : Bool
deriving DecidableEq, Repr

/-- A row of the `audit_logs` table (surrogate id and server-side timestamp
omitted; no route reads them). -/
structure AuditLog where
  document_id : Nat
  action : String
  ip_address : String
  user_agent : String
deriving DecidableEq, Repr

/-- Request body of `POST /documents/.../fields` (`FieldCreate` in
`app/schemas.py`). -/
structure FieldCreate where
  signer_email : String
  page_number : Int
  x_coordinate : Int
  y_coordinate : Int
  type : FieldType
  include_name : Bool
  include_date : Bool
deriving DecidableEq, Repr

/-- Errors surfaced by the routes (as `HTTPException` payloads), plus
`nameError` for the uncaught `NameError` escaping `sign_document`. -/
inductive Err
  | notFound
  | alreadySigned
  | alreadySent
  | signerNotFound
  | fileMissing
  | nameError
deriving DecidableEq, Repr

/-- The local artifact store: a path-to-content association list where a
`put` prepends, so the newest write wins on lookup (an overwriting
filesystem). -/
def Store := List (String × String)
deriving DecidableEq, Repr

/-- Write `content` at `path` in the store (`storage.upload_file`, local
branch: `open(file_path, "wb")`). -/
def Store.put (st : Store) (path content : String) : Store :=
  (path, content) :: st

/-- Read the content at `path` (`storage.download_file`, local branch), or
`none` when the file does not exist. -/
def Store.read (st : Store) (path : String) : Option String :=
  match st with
  | [] => none
  | (p, c) :: rest => if p = path then some c else Store.read rest path

/-- Existence check used by the routers (`os.path.exists`). -/
def Store.exists (st : Store) (path : String) : Bool :=
  (Store.read st path).isSome

/-- Full application state: the four tables, the artifact store, and the
autoincrement counters of the tables whose ids the routes use. -/
structure AppState where
  documents : List Document
  signers : List Signer
  fields : List DocField
  audits : List AuditLog
  store : Store
  next_document_id : Nat
  next_signer_id : Nat
  next_field_id : Nat
deriving DecidableEq, Repr

/-- The empty database and store. -/
def initState : AppState :=
  { documents := [], signers := [], fields := [], audits := [], store := []
  , next_document_id := 1, next_signer_id := 1, next_field_id := 1 }

/-- Replace the first element satisfying `p` by its image under `f`
(SQLAlchemy `.first()` followed by attribute assignment and commit). -/
def replaceFirst (p : α → Bool) (f : α → α) : List α → List α
  | [] => []
  | a :: as => if p a then f a :: as else a :: replaceFirst p f as

/-- Query `db.query(Document).filter(id == document_id, user_id == user).first()`. -/
def findDoc (s : AppState) (document_id user_id : Nat) : Option Document :=
  s.documents.find? fun d => d.id = document_id && d.user_id = user_id

/-- Query `db.query(Signer).filter(Signer.token == token).first()`. -/
def findSignerByToken (s : AppState) (token : String) : Option Signer :=
  s.signers.find? fun g => g.token = token

/-- The signers related to a document (`document.signers`). -/
def signersOf (s : AppState) (document_id : Nat) : List Signer :=
  s.signers.filter fun g => g.document_id = document_id

/-- Deterministic key of a signer's stored signature artifact
(`signed_docs/sig_{id}_{token}.png.txt` in `sign_document`). -/
def sigArtifactPath (signer_id : Nat) (token : String) : String :=
  "signed_docs/sig_" ++ toString signer_id ++ "_" ++ token ++ ".png.txt"

/-- Deterministic key of the finalized artifact
(`signed_docs/signed_{document.id}.pdf`). -/
def finalizedPath (document_id : Nat) : String :=
  "signed_docs/signed_" ++ toString document_id ++ ".pdf"

/-- Key of an uploaded original (`uploads/{uuid}_{filename}`); the uuid part
is supplied by the caller as `uniq`. -/
def uploadPath (uniq filename : String) : String :=
  "uploads/" ++ uniq ++ "_" ++ filename

/-- Route `POST /documents/upload` (`upload_document` in
`app/routers/documents.py`): store the bytes and insert a `Draft` document
row. -/
def uploadDocument (user_id : Nat) (filename uniq content : String)
    (s : AppState) : Except Err Unit × AppState :=
  let path := uploadPath uniq filename
  let doc : Document :=
    { id := s.next_document_id, user_id := user_id, filename := filename
    , file_path := path, status := DocumentStatus.DRAFT }
  (Except.ok (),
   { s with documents := s.documents ++ [doc]
          , store := s.store.put path content
          , next_document_id := s.next_document_id + 1 })

/-- Route `POST /documents/{id}/signers` (`add_signer`): look the document up
by id and owner, then insert a signer with a fresh token and a default
signature field at page 1, (450, 750).  The source performs no check on
`document.status`. -/
def addSigner (document_id user_id : Nat) (email name token : String)
    (s : AppState) : Except Err Unit × AppState :=
  match findDoc s document_id user_id with
  | none => (Except.error Err.notFound, s)
  | some _ =>
    let g : Signer :=
      { id := s.next_signer_id, document_id := document_id, email := email
      , name := name, token := token, has_signed := false, signed_at := none }
    let fld : DocField :=
      { id := s.next_field_id, document_id := document_id
      , signer_id := s.next_signer_id, page_number := 1, x_coordinate := 450
      , y_coordinate := 750, type := FieldType.SIGNATURE
      , include_name := true, include_date := true }
    (Except.ok (),
     { s with signers := s.signers ++ [g]
            , fields := s.fields ++ [fld]
            , next_signer_id := s.next_signer_id + 1
            , next_field_id := s.next_field_id + 1 })

/-- Update applied by `add_field` when a field for the pair already exists:
every column except id, document and signer is overwritten in place. -/
def overwriteField (req : FieldCreate) (f : DocField) : DocField :=
  { f with page_number := req.page_number, x_coordinate := req.x_coordinate
         , y_coordinate := req.y_coordinate, type := req.type
         , include_name := req.include_name, include_date := req.include_date }

/-- The filter of the existing-field query of `add_field`: a field row of
the given (document, signer) pair. -/
def isPairField (document_id signer_id : Nat) (f : DocField) : Bool :=
  f.document_id = document_id && f.signer_id = signer_id

/-- Route `POST /documents/{id}/fields` (`add_field`): resolve the signer by
email within the document, then update the first existing field of the
(document, signer) pair in place, or insert a new one. -/
def addField (document_id user_id : Nat) (req : FieldCreate)
    (s : AppState) : Except Err Unit × AppState :=
  match findDoc s document_id user_id with
  | none => (Except.error Err.notFound, s)
  | some _ =>
    match s.signers.find? (fun g => g.document_id = document_id && g.email = req.signer_email) with
    | none => (Except.error Err.signerNotFound, s)
    | some g =>
      match s.fields.find? (isPairField document_id g.id) with
      | some _ =>
        (Except.ok (),
         { s with fields := replaceFirst (isPairField document_id g.id)
                              (overwriteField req) s.fields })
      | none =>
        let fld : DocField :=
          { id := s.next_field_id, document_id := document_id
          , signer_id := g.id, page_number := req.page_number
          , x_coordinate := req.x_coordinate, y_coordinate := req.y_coordinate
          , type := req.type, include_name := req.include_name
          , include_date := req.include_date }
        (Except.ok (),
         { s with fields := s.fields ++ [fld]
                , next_field_id := s.next_field_id + 1 })

/-- Route `POST /documents/{id}/send` (`send_document`): only a `Draft`
document may be sent; on success the status becomes `Sent` and a `SENT`
audit row is appended. -/
def sendDocument (document_id user_id : Nat)
    (s : AppState) : Except Err Unit × AppState :=
  match findDoc s document_id user_id with
  | none => (Except.error Err.notFound, s)
  | some doc =>
    if doc.status ≠ DocumentStatus.DRAFT then
      (Except.error Err.alreadySent, s)
    else
      (Except.ok (),
       { s with documents :=
                  replaceFirst (fun d => d.id = document_id && d.user_id = user_id)
                    (fun d => { d with status := DocumentStatus.SENT }) s.documents
              , audits := s.audits ++
                  [{ document_id := document_id, action := "SENT"
                   , ip_address := "127.0.0.1", user_agent := "System" }] })

/-- Route `GET /documents/{id}/download` (`download_document`, local-storage
branch): serve the finalized file when the document is `Completed` and that
file exists, otherwise the original upload. -/
def downloadDocument (document_id user_id : Nat)
    (s : AppState) : Except Err String :=
  match findDoc s document_id user_id with
  | none => Except.error Err.notFound
  | some doc =>
    let path :=
      if doc.status = DocumentStatus.COMPLETED then
        if s.store.exists (finalizedPath doc.id) then finalizedPath doc.id
        else doc.file_path
      else doc.file_path
    match s.store.read path with
    | none => Except.error Err.fileMissing
    | some content => Except.ok content

/-- Route `POST /signing/sign/{token}` (`sign_document` in
`app/routers/signing.py`).  An unknown token or an already-signed signer
fails with no state change.  Otherwise the signer's `has_signed` and
`signed_at` are set together, the raw submission string is stored under the
deterministic signature key, a `SIGNED` audit row is appended, and these
effects are committed (line 97).  Then `all_signed` is evaluated over the
document's signers; when it is true the source assigns
`document.status = COMPLETED` in the session and immediately raises
`NameError` on the undefined `SIGNED_DOCS_DIR` (line 111), so the uncommitted
status assignment is rolled back when the session closes and the call errors
with the committed effects as the final state; the compositor is never
reached.  When `all_signed` is false the call returns successfully.
The next three definitions are the pieces of that route; `signDocument`
assembles them. -/
def signerFlip (token : String) (now : Nat) (l : List Signer) : List Signer :=
  replaceFirst (fun x => x.token = token)
    (fun x => { x with has_signed := true, signed_at := some now }) l

/-- The committed effects of a fresh signature submission (everything up to
and including the `db.commit()` at line 97 of `sign_document`): the signer's
flip, the stored raw payload, and the `SIGNED` audit row. -/
def signCommitted (g : Signer) (token data ip ua : String) (now : Nat)
    (s : AppState) : AppState :=
  { s with signers := signerFlip token now s.signers
         , store := s.store.put (sigArtifactPath g.id g.token) data
         , audits := s.audits ++
             [{ document_id := g.document_id, action := "SIGNED"
              , ip_address := ip, user_agent := ua }] }

/-- The completion predicate `all(s.has_signed for s in document.signers)`,
evaluated on the committed state. -/
def allSignedAfter (s1 : AppState) (document_id : Nat) : Bool :=
  (signersOf s1 document_id).all fun x => x.has_signed

def signDocument (token data ip ua : String) (now : Nat)
    (s : AppState) : Except Err Unit × AppState :=
  match findSignerByToken s token with
  | none => (Except.error Err.notFound, s)
  | some g =>
    if g.has_signed then
      (Except.error Err.alreadySigned, s)
    else
      let s1 := signCommitted g token data ip ua now s
      if allSignedAfter s1 g.document_id then
        (Except.error Err.nameError, s1)
      else
        (Except.ok (), s1)

/-- One entry of `signatures_to_burn` handed to `sign_pdf_bytes` (built in
`sign_document`): page, coordinates, the signer's name (`text`), the raw
stored payload or `None`, the display options and the formatted signing
date. -/
structure Placement where
  page_number : Int
  x : Int
  y : Int
  text : String
  image_data : Option String
  include_name : Bool
  include_date : Bool
  signed_at : String
deriving DecidableEq, Repr

/-- A drawing command on a reportlab canvas: `drawImage` with a position, the
fixed 150 by 50 footprint and the decoded bytes, `drawString`, or
`setFont`. -/
inductive DrawCmd
  | image (x y : Int) (w h : Nat) (bytes : String)
  | text (x y : Int) (s : String)
  | font (name : String) (size : Nat)
deriving DecidableEq, Repr

/-- One page of a paged document: its mediabox dimensions and its content
stream as a list of drawing commands.  `merge_page` stacks an overlay of
commands on top of the existing content. -/
structure Page where
  width : Int
  height : Int
  content : List DrawCmd
deriving DecidableEq, Repr

/-- Python's `s.split(",", 1)` two-variable unpacking: succeeds with the part
after the first comma when a comma occurs, raises (here: `none`) otherwise. -/
def dropThroughComma : List Char → Option (List Char)
  | [] => none
  | c :: cs => if c = ',' then some cs else dropThroughComma cs

/-- The encoded payload of a data URL, or `none` when there is no comma to
split on. -/
def splitComma (s : String) : Option String :=
  (dropThroughComma s.data).map fun l => String.mk l

/-- Commands drawn for one placement, translated from the per-signature body
of `sign_pdf_bytes` (`app/services/pdf_service.py`, lines 120 to 153).  The
decoder `dec` stands for `base64.b64decode` followed by `drawImage` reading
the bytes as an image; `none` means that pipeline raises.  When `image_data`
is present and truthy the whole block from the split through the name and
date lines sits in one `try`, so any decode failure leaves nothing drawn for
this placement; the bare-text branch runs only when `image_data` is `None` or
empty. -/
def renderSig (dec : String → Option String) (sig : Placement) : List DrawCmd :=
  match sig.image_data with
  | none => [DrawCmd.text sig.x sig.y sig.text]
  | some d =>
    if d = "" then [DrawCmd.text sig.x sig.y sig.text]
    else
      match splitComma d with
      | none => []
      | some encoded =>
        match dec encoded with
        | none => []
        | some img =>
          [DrawCmd.image sig.x sig.y 150 50 img]
          ++ (if sig.include_name then
                [DrawCmd.font "Helvetica" 8,
                 DrawCmd.text sig.x (sig.y - 10) ("Signer: " ++ sig.text)]
              else [])
          ++ (if sig.include_date then
                [DrawCmd.font "Helvetica" 8,
                 DrawCmd.text sig.x
                   (sig.y - (if sig.include_name then 20 else 10))
                   ("Date: " ++ sig.signed_at)]
              else [])

/-- Process one page: when at least one placement targets this 1-based page
number, build the overlay canvas from the page's placements in submission
order and merge it on top of the original content; otherwise the page passes
through untouched. -/
def processPage (dec : String → Option String) (signatures : List Placement)
    (page_num : Int) (page : Page) : Page :=
  let pageSigs := signatures.filter fun s => s.page_number = page_num
  if pageSigs.isEmpty then page
  else { page with content := page.content ++ (pageSigs.map (renderSig dec)).flatten }

/-- Walk the pages with their 1-based page numbers. -/
def signPages (dec : String → Option String) (signatures : List Placement) :
    Int → List Page → List Page
  | _, [] => []
  | n, page :: rest =>
      processPage dec signatures n page :: signPages dec signatures (n + 1) rest

/-- The compositor `sign_pdf_bytes`: every page of the input document appears
in the output, transformed exactly when some placement targets it. -/
def sign_pdf_bytes (dec : String → Option String) (pdf : List Page)
    (signatures : List Placement) : List Page :=
  signPages dec signatures 1 pdf

/-! Helper lemmas about `replaceFirst`. -/

theorem replaceFirst_length (p : α → Bool) (f : α → α) (l : List α) :
    (replaceFirst p f l).length = l.length := by
  induction l with
  | nil => rfl
  | cons a as ih =>
    by_cases h : p a
    · simp [replaceFirst, h]
    · simp [replaceFirst, h, ih]

theorem mem_replaceFirst {p : α → Bool} {f : α → α} {l : List α} {x : α}
    (h : x ∈ replaceFirst p f l) : x ∈ l ∨ ∃ y, y ∈ l ∧ x = f y := by
  induction l with
  | nil => simp [replaceFirst] at h
  | cons a as ih =>
    by_cases ha : p a
    · simp only [replaceFirst, ha, if_pos] at h
      rcases List.mem_cons.mp h with h1 | h1
      · exact Or.inr ⟨a, List.mem_cons_self a as, h1⟩
      · exact Or.inl (List.mem_cons_of_mem a h1)
    · simp only [replaceFirst, ha, if_neg, Bool.false_eq_true, not_false_iff] at h
      rcases List.mem_cons.mp h with h1 | h1
      · exact Or.inl (h1 ▸ List.mem_cons_self a as)
      · rcases ih h1 with h2 | ⟨y, hy, hxy⟩
        · exact Or.inl (List.mem_cons_of_mem a h2)
        · exact Or.inr ⟨y, List.mem_cons_of_mem a hy, hxy⟩

theorem replaceFirst_split {p : α → Bool} {f : α → α} {l : List α} {a : α}
    (h : l.find? p = some a) :
    ∃ l₁ l₂, l = l₁ ++ a :: l₂ ∧ (∀ b ∈ l₁, p b = false) ∧
      replaceFirst p f l = l₁ ++ f a :: l₂ := by
  induction l with
  | nil => simp [List.find?] at h
  | cons x xs ih =>
    by_cases hx : p x
    · rw [List.find?_cons_of_pos _ hx] at h
      obtain rfl : x = a := by injection h
      exact ⟨[], xs, rfl, by simp, by simp [replaceFirst, hx]⟩
    · rw [List.find?_cons_of_neg _ hx] at h
      obtain ⟨l₁, l₂, hl, hfalse, hrep⟩ := ih h
      refine ⟨x :: l₁, l₂, by simp [hl], ?_, ?_⟩
      · intro b hb
        rcases List.mem_cons.mp hb with rfl | hb1
        · exact Bool.eq_false_iff.mpr hx
        · exact hfalse b hb1
      · simp [replaceFirst, hx, hrep]

/-- One state-changing request to the application. -/
inductive Op
  | upload (user_id : Nat) (filename uniq content : String)
  | addSigner (document_id user_id : Nat) (email name token : String)
  | addField (document_id user_id : Nat) (req : FieldCreate)
  | send (document_id user_id : Nat)
  | sign (token data ip ua : String) (now : Nat)
deriving DecidableEq, Repr

/-- The state reached after a request, whether it succeeded or failed. -/
def applyOp : Op → AppState → AppState
  | Op.upload u fn uq c, s => (uploadDocument u fn uq c s).2
  | Op.addSigner d u e n t, s => (addSigner d u e n t s).2
  | Op.addField d u r, s => (addField d u r s).2
  | Op.send d u, s => (sendDocument d u s).2
  | Op.sign t dt ip ua now, s => (signDocument t dt ip ua now s).2

/-- One transition of the application: some request was processed.  The
read-only routes (`list_documents`, `download_document`,
`view_document_for_signing`, `download_signed_by_token`) do not change the
state and need no transition. -/
def Step (s s2 : AppState) : Prop :=
  ∃ op, applyOp op s = s2

/-- States reachable from the empty database by a sequence of requests. -/
def Reachable (s : AppState) : Prop :=
  Relation.ReflTransGen Step initState s

/-! Claim C5. -/

/-- Claim C5: a second signature submission for a signer whose has-signed
flag is already true fails with AlreadySigned and has no side effects at
all — the returned state is the input state, so the stored artifact bytes,
the has-signed flag and the signed-at timestamp keep their prior values. -/
theorem C5_already_signed_no_side_effects
    (s : AppState) (token data ip ua : String) (now : Nat) (g : Signer)
    (hg : findSignerByToken s token = some g)
    (hs : g.has_signed = true) :
    signDocument token data ip ua now s = (Except.error Err.alreadySigned, s) := by
  simp [signDocument, hg, hs]

/-- A state with one Sent document, one unsigned signer with a default field,
and the uploaded original in the store. -/
def sentDocState : AppState :=
  { documents := [{ id := 1, user_id := 1, filename := "contract.pdf"
                  , file_path := "uploads/u1_contract.pdf"
                  , status := DocumentStatus.SENT }]
  , signers := [{ id := 1, document_id := 1, email := "alice@example.com"
                , name := "Alice", token := "tok-alice", has_signed := false
                , signed_at := none }]
  , fields := [{ id := 1, document_id := 1, signer_id := 1, page_number := 1
               , x_coordinate := 450, y_coordinate := 750
               , type := FieldType.SIGNATURE, include_name := true
               , include_date := true }]
  , audits := [{ document_id := 1, action := "SENT", ip_address := "127.0.0.1"
               , user_agent := "System" }]
  , store := [("uploads/u1_contract.pdf", "PDFBYTES")]
  , next_document_id := 2, next_signer_id := 2, next_field_id := 2 }

/-- Like `sentDocState` but the signer has already signed at time 50. -/
def sentSignedState : AppState :=
  { sentDocState with
      signers := [{ id := 1, document_id := 1, email := "alice@example.com"
                  , name := "Alice", token := "tok-alice", has_signed := true
                  , signed_at := some 50 }] }

/-- Witness for C5 at a concrete already-signed state. -/
theorem C5_already_signed_no_side_effects_witness :
    signDocument "tok-alice" "data:image/png;base64,BBBB" "9.9.9.9" "agent" 60
        sentSignedState = (Except.error Err.alreadySigned, sentSignedState) :=
  C5_already_signed_no_side_effects sentSignedState "tok-alice"
    "data:image/png;base64,BBBB" "9.9.9.9" "agent" 60
    { id := 1, document_id := 1, email := "alice@example.com", name := "Alice"
    , token := "tok-alice", has_signed := true, signed_at := some 50 }
    rfl rfl

/-! Claim C2. -/

/-- Claim C2: when a fresh submission makes the completion predicate true,
finalization is attempted and fails (in the source the failure is the
`NameError` of line 111, raised before the compositor or any store write of
finalized bytes); the call errors, the document rows — and with them the
Sent status — are exactly those of the pre-state, every signer of the
document keeps has-signed true, and the only store write is the submitted
signature artifact. -/
theorem C2_finalize_failure_leaves_sent
    (s : AppState) (token data ip ua : String) (now : Nat)
    (g : Signer) (doc : Document)
    (hg : findSignerByToken s token = some g)
    (hns : g.has_signed = false)
    (hall : allSignedAfter (signCommitted g token data ip ua now s) g.document_id = true)
    (hdoc : doc ∈ s.documents)
    (hsent : doc.status = DocumentStatus.SENT) :
    (signDocument token data ip ua now s).1 = Except.error Err.nameError ∧
    (signDocument token data ip ua now s).2.documents = s.documents ∧
    doc ∈ (signDocument token data ip ua now s).2.documents ∧
    doc.status = DocumentStatus.SENT ∧
    (∀ x ∈ signersOf (signDocument token data ip ua now s).2 g.document_id,
       x.has_signed = true) ∧
    (signDocument token data ip ua now s).2.store =
      s.store.put (sigArtifactPath g.id g.token) data := by
  have hrun : signDocument token data ip ua now s =
      (Except.error Err.nameError, signCommitted g token data ip ua now s) := by
    simp [signDocument, hg, hns, hall]
  refine ⟨by rw [hrun], by rw [hrun]; rfl, by rw [hrun]; exact hdoc, hsent, ?_, by rw [hrun]; rfl⟩
  intro x hx
  rw [hrun] at hx
  exact List.all_eq_true.mp hall x hx

/-- Witness for C2: Alice is the only signer of a Sent document, so her
submission triggers the completion check; the call fails and the document
row is untouched. -/
theorem C2_finalize_failure_leaves_sent_witness :
    (signDocument "tok-alice" "data:image/png;base64,AAAA" "1.2.3.4" "agent" 100
        sentDocState).1 = Except.error Err.nameError ∧
    (signDocument "tok-alice" "data:image/png;base64,AAAA" "1.2.3.4" "agent" 100
        sentDocState).2.documents = sentDocState.documents := by
  have h := C2_finalize_failure_leaves_sent sentDocState "tok-alice"
    "data:image/png;base64,AAAA" "1.2.3.4" "agent" 100
    { id := 1, document_id := 1, email := "alice@example.com", name := "Alice"
    , token := "tok-alice", has_signed := false, signed_at := none }
    { id := 1, user_id := 1, filename := "contract.pdf"
    , file_path := "uploads/u1_contract.pdf", status := DocumentStatus.SENT }
    rfl rfl (by decide) (by decide) rfl
  exact ⟨h.1, h.2.1⟩

/-! Claim C6. -/

/-- A state holding one Completed document owned by user 1. -/
def completedDocState : AppState :=
  { documents := [{ id := 1, user_id := 1, filename := "contract.pdf"
                  , file_path := "uploads/u1_contract.pdf"
                  , status := DocumentStatus.COMPLETED }]
  , signers := [], fields := [], audits := []
  , store := [("uploads/u1_contract.pdf", "PDFBYTES")]
  , next_document_id := 2, next_signer_id := 1, next_field_id := 1 }

/-- Counterexample to claim C6 as stated: adding a signer to a Completed
document does not fail with InvalidState — `add_signer` performs no status
check — and it does create a Signer record. -/
theorem C6_add_signer_completed_counterexample :
    (addSigner 1 1 "bob@example.com" "Bob" "tok-bob" completedDocState).1 =
      Except.ok () ∧
    (addSigner 1 1 "bob@example.com" "Bob" "tok-bob"
        completedDocState).2.signers.length = 1 :=
  ⟨rfl, rfl⟩

/-- Claim C6 amended: adding a signer succeeds whenever the document exists
and belongs to the caller, regardless of its status — Draft, Sent or
Completed alike; a Signer record and its default Field are appended and the
document rows are untouched. -/
theorem C6_add_signer_ignores_status
    (s : AppState) (document_id user_id : Nat)
    (email name token : String) (doc : Document)
    (hdoc : findDoc s document_id user_id = some doc) :
    (addSigner document_id user_id email name token s).1 = Except.ok () ∧
    (addSigner document_id user_id email name token s).2.signers =
      s.signers ++ [{ id := s.next_signer_id, document_id := document_id
                    , email := email, name := name, token := token
                    , has_signed := false, signed_at := none }] ∧
    (addSigner document_id user_id email name token s).2.fields =
      s.fields ++ [{ id := s.next_field_id, document_id := document_id
                   , signer_id := s.next_signer_id, page_number := 1
                   , x_coordinate := 450, y_coordinate := 750
                   , type := FieldType.SIGNATURE, include_name := true
                   , include_date := true }] ∧
    (addSigner document_id user_id email name token s).2.documents =
      s.documents := by
  simp [addSigner, hdoc]

/-- Witness for the amended C6 at the concrete Completed-document state. -/
theorem C6_add_signer_ignores_status_witness :
    (addSigner 1 1 "carol@example.com" "Carol" "tok-carol"
        completedDocState).1 = Except.ok () ∧
    (addSigner 1 1 "carol@example.com" "Carol" "tok-carol"
        completedDocState).2.documents = completedDocState.documents := by
  have h := C6_add_signer_ignores_status completedDocState 1 1
    "carol@example.com" "Carol" "tok-carol"
    { id := 1, user_id := 1, filename := "contract.pdf"
    , file_path := "uploads/u1_contract.pdf"
    , status := DocumentStatus.COMPLETED } rfl
  exact ⟨h.1, h.2.2.2⟩

/-! Claim C1. -/

/-- The full happy-path trace of the repository's own test
(`tests/test_flow.py`): upload, add one signer, send, and have that signer
submit a signature. -/
def traceAfterUpload : AppState :=
  applyOp (Op.upload 1 "contract.pdf" "u1" "PDFBYTES") initState

def traceAfterAddSigner : AppState :=
  applyOp (Op.addSigner 1 1 "alice@example.com" "Alice" "tok-alice") traceAfterUpload

def traceAfterSend : AppState :=
  applyOp (Op.send 1 1) traceAfterAddSigner

def traceFinalSign : Except Err Unit × AppState :=
  signDocument "tok-alice" "data:image/png;base64,AAAA" "1.2.3.4" "agent" 100
    traceAfterSend

/-- Claim C1 evaluated on the code: on the submission that makes every
signer of the document signed, `sign_document` raises `NameError` on the
undefined `SIGNED_DOCS_DIR` before the finalize-and-persist sequence, so
that sequence executes zero times — no finalized artifact is ever written,
no Completed AuditEvent is ever appended, and the document stays Sent —
where the claim (and the spec) requires exactly one of each.  The repository
test `tests/test_flow.py` expects this very request to succeed. -/
theorem C1_finalization_never_executes :
    traceFinalSign.1 = Except.error Err.nameError ∧
    (∀ d ∈ traceFinalSign.2.documents, d.status = DocumentStatus.SENT) ∧
    (traceFinalSign.2.audits.filter fun a => a.action = "COMPLETED") = [] ∧
    traceFinalSign.2.store.read (finalizedPath 1) = none ∧
    (∀ g ∈ traceFinalSign.2.signers, g.has_signed = true) :=
  ⟨rfl, by decide, by decide, by decide, by decide⟩

/-! Claim C9. -/

/-- Claim C9: the owner's download serves the finalized bytes when the
document is Completed (the finalized artifact being present in the store, as
the spec's lifecycle guarantees at Completed), and the original uploaded
bytes in every other status. -/
theorem C9_download_completed_or_original
    (s : AppState) (document_id user_id : Nat) (doc : Document)
    (hdoc : findDoc s document_id user_id = some doc) :
    (doc.status = DocumentStatus.COMPLETED →
       ∀ fin, s.store.read (finalizedPath doc.id) = some fin →
         downloadDocument document_id user_id s = Except.ok fin) ∧
    (doc.status ≠ DocumentStatus.COMPLETED →
       ∀ orig, s.store.read doc.file_path = some orig →
         downloadDocument document_id user_id s = Except.ok orig) := by
  constructor
  · intro hst fin hfin
    simp [downloadDocument, hdoc, hst, Store.exists, hfin]
  · intro hst orig horig
    simp [downloadDocument, hdoc, hst, horig]

/-- A Completed document whose finalized artifact and original are both in
the store. -/
def completedWithArtifactState : AppState :=
  { documents := [{ id := 1, user_id := 1, filename := "contract.pdf"
                  , file_path := "uploads/u1_contract.pdf"
                  , status := DocumentStatus.COMPLETED }]
  , signers := [], fields := [], audits := []
  , store := [("signed_docs/signed_1.pdf", "FINALBYTES"),
              ("uploads/u1_contract.pdf", "ORIGBYTES")]
  , next_document_id := 2, next_signer_id := 1, next_field_id := 1 }

/-- Witness for C9: at the concrete Completed state the finalized bytes are
served. -/
theorem C9_download_completed_or_original_witness :
    downloadDocument 1 1 completedWithArtifactState = Except.ok "FINALBYTES" :=
  (C9_download_completed_or_original completedWithArtifactState 1 1
    { id := 1, user_id := 1, filename := "contract.pdf"
    , file_path := "uploads/u1_contract.pdf"
    , status := DocumentStatus.COMPLETED } rfl).1 rfl "FINALBYTES" rfl

/-! Claim C7. -/

/-- Number of field rows of a (document, signer) pair. -/
def pairFieldCount (s : AppState) (document_id signer_id : Nat) : Nat :=
  s.fields.countP (isPairField document_id signer_id)

/-- A field row carries exactly the values of an add-field request. -/
def fieldMatchesReq (req : FieldCreate) (f : DocField) : Prop :=
  f.page_number = req.page_number ∧ f.x_coordinate = req.x_coordinate ∧
  f.y_coordinate = req.y_coordinate ∧ f.type = req.type ∧
  f.include_name = req.include_name ∧ f.include_date = req.include_date

/-- One successful `add_field` call leaves exactly one field row for the
resolved (document, signer) pair, carrying the request's values, and touches
no other table. -/
theorem addField_spec (s : AppState) (document_id user_id : Nat)
    (req : FieldCreate) (doc : Document) (g : Signer)
    (hdoc : findDoc s document_id user_id = some doc)
    (hg : s.signers.find?
        (fun x => x.document_id = document_id && x.email = req.signer_email) = some g)
    (hcount : pairFieldCount s document_id g.id ≤ 1) :
    (addField document_id user_id req s).1 = Except.ok () ∧
    pairFieldCount (addField document_id user_id req s).2 document_id g.id = 1 ∧
    (∀ f ∈ (addField document_id user_id req s).2.fields,
        isPairField document_id g.id f = true → fieldMatchesReq req f) ∧
    (addField document_id user_id req s).2.documents = s.documents ∧
    (addField document_id user_id req s).2.signers = s.signers := by
  cases hfind : s.fields.find? (isPairField document_id g.id) with
  | none =>
    have hall : ∀ f ∈ s.fields, isPairField document_id g.id f = false := by
      intro f hf
      exact Bool.eq_false_iff.mpr (List.find?_eq_none.mp hfind f hf)
    refine ⟨by simp [addField, hdoc, hg, hfind], ?_, ?_, ?_, ?_⟩
    · simp only [addField, hdoc, hg, hfind, pairFieldCount]
      rw [List.countP_append]
      rw [List.countP_eq_zero.mpr fun f hf => by rw [hall f hf]; exact Bool.false_ne_true]
      simp [List.countP_cons, isPairField]
    · intro f hf hp
      simp only [addField, hdoc, hg, hfind] at hf
      rcases List.mem_append.mp hf with hmem | hmem
      · rw [hall f hmem] at hp
        exact absurd hp Bool.false_ne_true
      · obtain rfl : f = _ := List.mem_singleton.mp hmem
        exact ⟨rfl, rfl, rfl, rfl, rfl, rfl⟩
    · simp [addField, hdoc, hg, hfind]
    · simp [addField, hdoc, hg, hfind]
  | some f0 =>
    obtain ⟨l₁, l₂, hl, hfalse, hrep⟩ :=
      replaceFirst_split (f := overwriteField req) hfind
    have hpf0 : isPairField document_id g.id f0 = true := List.find?_some hfind
    have hc1 : l₁.countP (isPairField document_id g.id) = 0 :=
      List.countP_eq_zero.mpr fun b hb => by
        rw [hfalse b hb]; exact Bool.false_ne_true
    have hc2 : l₂.countP (isPairField document_id g.id) = 0 := by
      have := hcount
      rw [pairFieldCount, hl, List.countP_append, List.countP_cons_of_pos _ _ hpf0, hc1] at this
      omega
    refine ⟨by simp [addField, hdoc, hg, hfind], ?_, ?_, ?_, ?_⟩
    · simp only [addField, hdoc, hg, hfind, pairFieldCount]
      rw [hrep, List.countP_append, hc1,
        List.countP_cons_of_pos _ _ (show isPairField document_id g.id
          (overwriteField req f0) = true from hpf0), hc2]
    · intro f hf hp
      simp only [addField, hdoc, hg, hfind] at hf
      rw [hrep] at hf
      rcases List.mem_append.mp hf with hmem | hmem
      · rw [hfalse f hmem] at hp
        exact absurd hp Bool.false_ne_true
      · rcases List.mem_cons.mp hmem with rfl | hmem2
        · exact ⟨rfl, rfl, rfl, rfl, rfl, rfl⟩
        · exact absurd hp ((List.countP_eq_zero.mp hc2) f hmem2)
    · simp [addField, hdoc, hg, hfind]
    · simp [addField, hdoc, hg, hfind]

/-- Claim C7: two add-field calls for the same (document, signer) pair —
the second resolving the same signer email — leave exactly one field row for
that pair, and it carries the values of the latest call; the first existing
row is updated in place, never duplicated.  The hypothesis that the pair has
at most one row beforehand is the standing invariant: `add_signer` creates
one default field per fresh signer and `add_field` never inserts a second
row for an existing pair. -/
theorem C7_two_addField_single_latest
    (s : AppState) (document_id user_id : Nat) (r1 r2 : FieldCreate)
    (doc : Document) (g : Signer)
    (hemail : r2.signer_email = r1.signer_email)
    (hdoc : findDoc s document_id user_id = some doc)
    (hg : s.signers.find?
        (fun x => x.document_id = document_id && x.email = r1.signer_email) = some g)
    (hcount : pairFieldCount s document_id g.id ≤ 1) :
    pairFieldCount (addField document_id user_id r2
        (addField document_id user_id r1 s).2).2 document_id g.id = 1 ∧
    ∀ f ∈ (addField document_id user_id r2
        (addField document_id user_id r1 s).2).2.fields,
      isPairField document_id g.id f = true → fieldMatchesReq r2 f := by
  obtain ⟨h1ok, h1cnt, h1match, h1docs, h1sgn⟩ :=
    addField_spec s document_id user_id r1 doc g hdoc hg hcount
  have hdoc2 : findDoc (addField document_id user_id r1 s).2 document_id user_id
      = some doc := by
    show (addField document_id user_id r1 s).2.documents.find? _ = some doc
    rw [h1docs]
    exact hdoc
  have hg2 : (addField document_id user_id r1 s).2.signers.find?
      (fun x => x.document_id = document_id && x.email = r2.signer_email) = some g := by
    rw [h1sgn, hemail]
    exact hg
  obtain ⟨h2ok, h2cnt, h2match, h2docs, h2sgn⟩ :=
    addField_spec (addField document_id user_id r1 s).2 document_id user_id r2
      doc g hdoc2 hg2 (le_of_eq h1cnt)
  exact ⟨h2cnt, h2match⟩

/-- First concrete add-field request for the C7 witness. -/
def reqW7a : FieldCreate :=
  { signer_email := "alice@example.com", page_number := 2, x_coordinate := 100
  , y_coordinate := 200, type := FieldType.SIGNATURE, include_name := true
  , include_date := false }

/-- Second concrete add-field request for the C7 witness. -/
def reqW7b : FieldCreate :=
  { signer_email := "alice@example.com", page_number := 3, x_coordinate := 50
  , y_coordinate := 60, type := FieldType.DATE, include_name := false
  , include_date := true }

/-- Witness for C7 at a concrete state that already has Alice's default
field: after two add-field calls exactly one field row of the pair exists. -/
theorem C7_two_addField_single_latest_witness :
    pairFieldCount (addField 1 1 reqW7b (addField 1 1 reqW7a sentDocState).2).2 1 1 = 1 :=
  (C7_two_addField_single_latest sentDocState 1 1 reqW7a reqW7b
    { id := 1, user_id := 1, filename := "contract.pdf"
    , file_path := "uploads/u1_contract.pdf", status := DocumentStatus.SENT }
    { id := 1, document_id := 1, email := "alice@example.com", name := "Alice"
    , token := "tok-alice", has_signed := false, signed_at := none }
    rfl rfl rfl (by decide)).1

/-! Claim C3. -/

/-- One allowed move of the document lifecycle: stay put, Draft to Sent, or
Sent to Completed — never backward and never skipping Sent. -/
def chainStep (a b : DocumentStatus) : Prop :=
  b = a ∨ (a = DocumentStatus.DRAFT ∧ b = DocumentStatus.SENT) ∨
  (a = DocumentStatus.SENT ∧ b = DocumentStatus.COMPLETED)

theorem get_congr_of_eq {l l2 : List α} (hl : l = l2) (i : Nat)
    (h : i < l.length) (h2 : i < l2.length) :
    l.get ⟨i, h⟩ = l2.get ⟨i, h2⟩ := by
  subst hl
  rfl

theorem get_append_left (l : List α) (d : α) (i : Nat) (h : i < l.length)
    (h2 : i < (l ++ [d]).length) :
    (l ++ [d]).get ⟨i, h2⟩ = l.get ⟨i, h⟩ := by
  induction l generalizing i with
  | nil => exact absurd h (Nat.not_lt_zero i)
  | cons x xs ih =>
    cases i with
    | zero => rfl
    | succ n => exact ih n (Nat.lt_of_succ_lt_succ h) (Nat.lt_of_succ_lt_succ h2)

theorem get_two_frames (l₁ l₂ : List α) (a b : α) (i : Nat)
    (h : i < (l₁ ++ a :: l₂).length) (h2 : i < (l₁ ++ b :: l₂).length) :
    (l₁ ++ b :: l₂).get ⟨i, h2⟩ = (l₁ ++ a :: l₂).get ⟨i, h⟩ ∨
    ((l₁ ++ a :: l₂).get ⟨i, h⟩ = a ∧ (l₁ ++ b :: l₂).get ⟨i, h2⟩ = b) := by
  induction l₁ generalizing i with
  | nil =>
    cases i with
    | zero => exact Or.inr ⟨rfl, rfl⟩
    | succ n => exact Or.inl rfl
  | cons x xs ih =>
    cases i with
    | zero => exact Or.inl rfl
    | succ n => exact ih n (Nat.lt_of_succ_lt_succ h) (Nat.lt_of_succ_lt_succ h2)

theorem addSigner_documents (d u : Nat) (e n t : String) (s : AppState) :
    (addSigner d u e n t s).2.documents = s.documents := by
  cases hfd : findDoc s d u <;> simp [addSigner, hfd]

theorem addField_documents (d u : Nat) (r : FieldCreate) (s : AppState) :
    (addField d u r s).2.documents = s.documents := by
  cases hfd : findDoc s d u with
  | none => simp [addField, hfd]
  | some doc =>
    cases hsg : s.signers.find? (fun g => g.document_id = d && g.email = r.signer_email) with
    | none => simp [addField, hfd, hsg]
    | some g =>
      cases hff : s.fields.find? (isPairField d g.id) with
      | some f0 => simp [addField, hfd, hsg, hff]
      | none => simp [addField, hfd, hsg, hff]

theorem signDocument_documents (t dt ip ua : String) (now : Nat) (s : AppState) :
    (signDocument t dt ip ua now s).2.documents = s.documents := by
  cases hg : findSignerByToken s t with
  | none => simp [signDocument, hg]
  | some g =>
    by_cases hs : g.has_signed <;>
      simp [signDocument, hg, hs, signCommitted, apply_ite]

theorem chainStep_of_documents_eq {s s2 : AppState}
    (hdocs : s2.documents = s.documents) (i : Nat)
    (h : i < s.documents.length) (h2 : i < s2.documents.length) :
    chainStep (s.documents.get ⟨i, h⟩).status (s2.documents.get ⟨i, h2⟩).status :=
  Or.inl (congrArg Document.status (get_congr_of_eq hdocs i h2 h))

/-- Claim C3: across any single application request, each document row's
status either stays put or moves one step forward along
Draft to Sent to Completed — never backward and never from Draft straight to
Completed.  (In this code base the only move that ever occurs is
Draft to Sent, performed by `send_document` under its Draft guard; the
Sent-to-Completed assignment of `sign_document` is rolled back with the
`NameError` of line 111 and so never commits.) -/
theorem C3_status_moves_forward_only (s s2 : AppState) (hstep : Step s s2)
    (i : Nat) (h : i < s.documents.length) (h2 : i < s2.documents.length) :
    chainStep (s.documents.get ⟨i, h⟩).status (s2.documents.get ⟨i, h2⟩).status := by
  obtain ⟨op, hop⟩ := hstep
  subst hop
  cases op with
  | upload u fn uq c =>
    exact Or.inl (congrArg Document.status (get_append_left s.documents _ i h h2))
  | addSigner d u e n t =>
    exact chainStep_of_documents_eq (addSigner_documents d u e n t s) i h h2
  | addField d u r =>
    exact chainStep_of_documents_eq (addField_documents d u r s) i h h2
  | sign t dt ip ua now =>
    exact chainStep_of_documents_eq (signDocument_documents t dt ip ua now s) i h h2
  | send d u =>
    cases hfd : findDoc s d u with
    | none =>
      exact chainStep_of_documents_eq (by simp [applyOp, sendDocument, hfd]) i h h2
    | some doc =>
      by_cases hst : doc.status = DocumentStatus.DRAFT
      · obtain ⟨l₁, l₂, hl, hfalse, hrep⟩ :=
          replaceFirst_split (f := fun dd => { dd with status := DocumentStatus.SENT }) hfd
        have hdocs2 : (applyOp (Op.send d u) s).documents =
            l₁ ++ { doc with status := DocumentStatus.SENT } :: l₂ := by
          simp [applyOp, sendDocument, hfd, hst, hrep]
        have h1a : i < (l₁ ++ doc :: l₂).length := by
          rw [← hl]; exact h
        have h2a : i < (l₁ ++ { doc with status := DocumentStatus.SENT } :: l₂).length := by
          rw [← hdocs2]; exact h2
        have e1 : s.documents.get ⟨i, h⟩ = (l₁ ++ doc :: l₂).get ⟨i, h1a⟩ :=
          get_congr_of_eq hl i h h1a
        have e2 : (applyOp (Op.send d u) s).documents.get ⟨i, h2⟩ =
            (l₁ ++ { doc with status := DocumentStatus.SENT } :: l₂).get ⟨i, h2a⟩ :=
          get_congr_of_eq hdocs2 i h2 h2a
        rcases get_two_frames l₁ l₂ doc { doc with status := DocumentStatus.SENT }
            i h1a h2a with heq | ⟨ha, hb⟩
        · exact Or.inl (by rw [e2, heq, ← e1])
        · refine Or.inr (Or.inl ⟨?_, ?_⟩)
          · rw [e1, ha]; exact hst
          · rw [e2, hb]
      · exact chainStep_of_documents_eq (by simp [applyOp, sendDocument, hfd, hst]) i h h2

/-- A single Draft document owned by user 1. -/
def draftDocState : AppState :=
  { documents := [{ id := 1, user_id := 1, filename := "contract.pdf"
                  , file_path := "uploads/u1_contract.pdf"
                  , status := DocumentStatus.DRAFT }]
  , signers := [], fields := [], audits := []
  , store := [("uploads/u1_contract.pdf", "PDFBYTES")]
  , next_document_id := 2, next_signer_id := 1, next_field_id := 1 }

/-- Witness for C3 at the concrete send step on a Draft document. -/
theorem C3_status_moves_forward_only_witness :
    chainStep ((draftDocState).documents.get ⟨0, by decide⟩).status
      ((applyOp (Op.send 1 1) draftDocState).documents.get ⟨0, by decide⟩).status :=
  C3_status_moves_forward_only draftDocState (applyOp (Op.send 1 1) draftDocState)
    ⟨Op.send 1 1, rfl⟩ 0 (by decide) (by decide)

/-! Claim C10. -/

theorem addField_signers_unchanged (d u : Nat) (r : FieldCreate) (s : AppState) :
    (addField d u r s).2.signers = s.signers := by
  cases hfd : findDoc s d u with
  | none => simp [addField, hfd]
  | some doc =>
    cases hsg : s.signers.find? (fun g => g.document_id = d && g.email = r.signer_email) with
    | none => simp [addField, hfd, hsg]
    | some g =>
      cases hff : s.fields.find? (isPairField d g.id) with
      | some f0 => simp [addField, hfd, hsg, hff]
      | none => simp [addField, hfd, hsg, hff]

theorem sendDocument_signers_unchanged (d u : Nat) (s : AppState) :
    (sendDocument d u s).2.signers = s.signers := by
  cases hfd : findDoc s d u with
  | none => simp [sendDocument, hfd]
  | some doc => by_cases hst : doc.status = DocumentStatus.DRAFT <;>
      simp [sendDocument, hfd, hst]

/-- The flag-and-timestamp consistency of one signer row. -/
def signerFlagConsistent (g : Signer) : Prop :=
  g.has_signed = g.signed_at.isSome

theorem step_preserves_signerFlagConsistent {s s2 : AppState} (hstep : Step s s2)
    (hinv : ∀ g ∈ s.signers, signerFlagConsistent g) :
    ∀ g ∈ s2.signers, signerFlagConsistent g := by
  obtain ⟨op, hop⟩ := hstep
  subst hop
  cases op with
  | upload u fn uq c => exact hinv
  | addSigner d u e n t =>
    intro g hg
    cases hfd : findDoc s d u with
    | none =>
      simp only [applyOp, addSigner, hfd] at hg
      exact hinv g hg
    | some doc =>
      simp only [applyOp, addSigner, hfd] at hg
      rcases List.mem_append.mp hg with hmem | hmem
      · exact hinv g hmem
      · obtain rfl : g = _ := List.mem_singleton.mp hmem
        rfl
  | addField d u r =>
    intro g hg
    rw [applyOp, addField_signers_unchanged] at hg
    exact hinv g hg
  | send d u =>
    intro g hg
    rw [applyOp, sendDocument_signers_unchanged] at hg
    exact hinv g hg
  | sign t dt ip ua now =>
    intro g hg
    cases hfs : findSignerByToken s t with
    | none =>
      simp only [applyOp, signDocument, hfs] at hg
      exact hinv g hg
    | some g0 =>
      by_cases hs : g0.has_signed
      · simp only [applyOp, signDocument, hfs, hs, if_pos] at hg
        exact hinv g hg
      · have hsgn : (signDocument t dt ip ua now s).2.signers =
            signerFlip t now s.signers := by
          simp [signDocument, hfs, hs, signCommitted, apply_ite]
        rw [applyOp, hsgn] at hg
        rcases mem_replaceFirst hg with hmem | ⟨y, hy, rfl⟩
        · exact hinv g hmem
        · rfl

/-- Claim C10: in every reachable state, a signer's has-signed flag is true
exactly when its signed-at timestamp is non-null.  A freshly created signer
starts with has-signed false and signed-at null (`add_signer`), and
`sign_document` assigns both together in the same committed update; no other
route touches either column. -/
theorem C10_has_signed_iff_signed_at (s : AppState) (hreach : Reachable s) :
    ∀ g ∈ s.signers, signerFlagConsistent g := by
  induction hreach with
  | refl =>
    intro g hg
    simp [initState] at hg
  | tail hsteps hstep ih =>
    exact step_preserves_signerFlagConsistent hstep ih

def traceW10a : AppState :=
  applyOp (Op.upload 1 "contract.pdf" "u1" "PDFBYTES") initState

def traceW10b : AppState :=
  applyOp (Op.addSigner 1 1 "alice@example.com" "Alice" "tok-w10") traceW10a

def traceW10c : AppState :=
  applyOp (Op.sign "tok-w10" "data:image/png;base64,AAAA" "1.2.3.4" "agent" 7) traceW10b

/-- Witness for C10 on the reachable state after upload, add-signer and a
signature submission: the signed signer satisfies the consistency
predicate. -/
theorem C10_has_signed_iff_signed_at_witness :
    signerFlagConsistent
      { id := 1, document_id := 1, email := "alice@example.com", name := "Alice"
      , token := "tok-w10", has_signed := true, signed_at := some 7 } :=
  C10_has_signed_iff_signed_at traceW10c
    (Relation.ReflTransGen.tail
      (Relation.ReflTransGen.tail
        (Relation.ReflTransGen.tail Relation.ReflTransGen.refl
          ⟨Op.upload 1 "contract.pdf" "u1" "PDFBYTES", rfl⟩)
        ⟨Op.addSigner 1 1 "alice@example.com" "Alice" "tok-w10", rfl⟩)
      ⟨Op.sign "tok-w10" "data:image/png;base64,AAAA" "1.2.3.4" "agent" 7, rfl⟩)
    { id := 1, document_id := 1, email := "alice@example.com", name := "Alice"
    , token := "tok-w10", has_signed := true, signed_at := some 7 }
    (by decide)

/-! Claim C8. -/

theorem signPages_nil_sigs (dec : String → Option String) :
    ∀ (n : Int) (pdf : List Page), signPages dec [] n pdf = pdf := by
  intro n pdf
  induction pdf generalizing n with
  | nil => rfl
  | cons page rest ih =>
    simp [signPages, processPage, ih]

theorem signPages_get_of_not_target (dec : String → Option String)
    (sigs : List Placement) :
    ∀ (pdf : List Page) (n : Int) (i : Nat)
      (h : i < pdf.length) (h2 : i < (signPages dec sigs n pdf).length),
      (∀ sig ∈ sigs, sig.page_number ≠ n + i) →
      (signPages dec sigs n pdf).get ⟨i, h2⟩ = pdf.get ⟨i, h⟩ := by
  intro pdf
  induction pdf with
  | nil =>
    intro n i h h2 hnone
    exact absurd h (Nat.not_lt_zero i)
  | cons page rest ih =>
    intro n i h h2 hnone
    cases i with
    | zero =>
      show processPage dec sigs n page = page
      have hfil : (sigs.filter fun sg => sg.page_number = n) = [] := by
        rw [List.filter_eq_nil_iff]
        intro a ha
        have := hnone a ha
        simpa using this
      simp [processPage, hfil]
    | succ m =>
      show (signPages dec sigs (n + 1) rest).get ⟨m, _⟩ = rest.get ⟨m, _⟩
      apply ih (n + 1) m (Nat.lt_of_succ_lt_succ h) (Nat.lt_of_succ_lt_succ h2)
      intro sig hsig heq
      apply hnone sig hsig
      push_cast
      omega

/-- Claim C8: the compositor leaves untargeted pages untouched — composing
with an empty placement list returns the document unchanged, and any page
whose 1-based number no placement targets keeps exactly its original
content. -/
theorem C8_pages_without_placements_unchanged (dec : String → Option String)
    (pdf : List Page) (sigs : List Placement) (i : Nat)
    (h : i < pdf.length) (h2 : i < (sign_pdf_bytes dec pdf sigs).length)
    (hnone : ∀ sig ∈ sigs, sig.page_number ≠ (i : Int) + 1) :
    sign_pdf_bytes dec pdf [] = pdf ∧
    (sign_pdf_bytes dec pdf sigs).get ⟨i, h2⟩ = pdf.get ⟨i, h⟩ := by
  constructor
  · exact signPages_nil_sigs dec 1 pdf
  · apply signPages_get_of_not_target dec sigs pdf 1 i h h2
    intro sig hsig
    rw [Int.add_comm]
    exact hnone sig hsig

/-- Two concrete pages for the C8 witness; a placement targets only the
second page. -/
def pgW8a : Page :=
  { width := 612, height := 792, content := [DrawCmd.text 1 2 "original"] }

def pgW8b : Page :=
  { width := 612, height := 792, content := [] }

def sigW8 : Placement :=
  { page_number := 2, x := 100, y := 200, text := "A"
  , image_data := none, include_name := true, include_date := true
  , signed_at := "2024-03-03 09:00" }

def decW8 : String → Option String := fun _ => none

/-- Witness for C8: page 1, untargeted, passes through unchanged, and the
empty placement list returns the document unchanged. -/
theorem C8_pages_without_placements_unchanged_witness :
    sign_pdf_bytes decW8 [pgW8a, pgW8b] [] = [pgW8a, pgW8b] ∧
    (sign_pdf_bytes decW8 [pgW8a, pgW8b] [sigW8]).get ⟨0, by decide⟩ =
      [pgW8a, pgW8b].get ⟨0, by decide⟩ :=
  C8_pages_without_placements_unchanged decW8 [pgW8a, pgW8b] [sigW8] 0
    (by decide) (by decide) (by decide)

/-! Claim C4. -/

/-- A placement whose image pipeline fails: the payload is present and truthy
but either the `split(",", 1)` unpacking raises (no comma) or the decode of
the encoded part fails. -/
def imageDecodeFails (dec : String → Option String) (sig : Placement) : Prop :=
  ∃ d, sig.image_data = some d ∧ d ≠ "" ∧
    (splitComma d = none ∨ ∃ enc, splitComma d = some enc ∧ dec enc = none)

theorem renderSig_eq_nil {dec : String → Option String} {sig : Placement}
    (hfail : imageDecodeFails dec sig) : renderSig dec sig = [] := by
  obtain ⟨d, hd, hne, hsplit⟩ := hfail
  rcases hsplit with hsc | ⟨enc, hsc, hdec⟩
  · simp [renderSig, hd, hne, hsc]
  · simp [renderSig, hd, hne, hsc, hdec]

theorem processPage_erase_bad (dec : String → Option String)
    (sigs₁ sigs₂ : List Placement) (bad : Placement)
    (hbad : imageDecodeFails dec bad) (n : Int) (page : Page) :
    processPage dec (sigs₁ ++ bad :: sigs₂) n page =
      processPage dec (sigs₁ ++ sigs₂) n page := by
  by_cases hpage : bad.page_number = n
  · have hnil := renderSig_eq_nil hbad
    have hLHSsigs : (sigs₁ ++ bad :: sigs₂).filter (fun sg => sg.page_number = n) =
        sigs₁.filter (fun sg => sg.page_number = n) ++
          bad :: sigs₂.filter (fun sg => sg.page_number = n) := by
      simp [List.filter_append, List.filter_cons, hpage]
    have hRHSsigs : (sigs₁ ++ sigs₂).filter (fun sg => sg.page_number = n) =
        sigs₁.filter (fun sg => sg.page_number = n) ++
          sigs₂.filter (fun sg => sg.page_number = n) :=
      List.filter_append _ _
    rw [processPage, processPage, hLHSsigs, hRHSsigs]
    cases hL : sigs₁.filter (fun sg => sg.page_number = n) with
    | cons a as => simp [hnil]
    | nil =>
      cases hR : sigs₂.filter (fun sg => sg.page_number = n) with
      | nil => simp [hnil]
      | cons b bs => simp [hnil]
  · have hsame : (sigs₁ ++ bad :: sigs₂).filter (fun sg => sg.page_number = n) =
        (sigs₁ ++ sigs₂).filter (fun sg => sg.page_number = n) := by
      simp [List.filter_append, List.filter_cons, hpage]
    rw [processPage, processPage, hsame]

theorem signPages_erase_bad (dec : String → Option String)
    (sigs₁ sigs₂ : List Placement) (bad : Placement)
    (hbad : imageDecodeFails dec bad) :
    ∀ (pdf : List Page) (n : Int),
      signPages dec (sigs₁ ++ bad :: sigs₂) n pdf =
        signPages dec (sigs₁ ++ sigs₂) n pdf := by
  intro pdf
  induction pdf with
  | nil => intro n; rfl
  | cons page rest ih =>
    intro n
    rw [signPages, signPages, processPage_erase_bad dec sigs₁ sigs₂ bad hbad n page, ih (n + 1)]

/-- The decoder of the C4 counterexample succeeds on every payload, to show
the skip is caused by the source's own `split(",", 1)` step. -/
def decC4 : String → Option String := fun s => some s

def pageC4 : Page := { width := 612, height := 792, content := [] }

/-- A placement whose payload has no comma, so the two-variable unpacking of
`split(",", 1)` raises inside the per-placement try. -/
def sigC4 : Placement :=
  { page_number := 1, x := 100, y := 200, text := "B"
  , image_data := some "malformedpayload", include_name := true
  , include_date := true, signed_at := "2024-01-01 00:00" }

/-- Counterexample to claim C4 as stated: for a placement with malformed
image data nothing at all is drawn — the output equals the input page and in
particular no text fallback line is rendered, where the claim requires the
lines Signer and Date to be drawn at the placement's coordinates. -/
theorem C4_malformed_fallback_counterexample :
    sign_pdf_bytes decC4 [pageC4] [sigC4] = [pageC4] ∧
    DrawCmd.text 100 190 "Signer: B" ∉
      ((sign_pdf_bytes decC4 [pageC4] [sigC4]).map Page.content).flatten := by
  decide

/-- Claim C4 amended: a placement whose image data fails to decode is
skipped entirely — neither its image nor its name/date text lines are drawn
(the raw-text fallback runs only when the placement carries no image data at
all) — and the composite continues with every remaining placement and page
unaffected: the output is exactly the composite of the same document with
the malformed placement removed. -/
theorem C4_malformed_placement_skipped (dec : String → Option String)
    (pdf : List Page) (sigs₁ sigs₂ : List Placement) (bad : Placement)
    (hbad : imageDecodeFails dec bad) :
    sign_pdf_bytes dec pdf (sigs₁ ++ bad :: sigs₂) =
      sign_pdf_bytes dec pdf (sigs₁ ++ sigs₂) :=
  signPages_erase_bad dec sigs₁ sigs₂ bad hbad pdf 1

def decW4 : String → Option String :=
  fun s => if s = "IMG" then some "IMGBYTES" else none

def pgW4 : Page := { width := 612, height := 792, content := [] }

def goodW4 : Placement :=
  { page_number := 1, x := 10, y := 700, text := "A"
  , image_data := some "data:image/png;base64,IMG", include_name := true
  , include_date := true, signed_at := "2024-02-02 10:00" }

def badW4 : Placement :=
  { page_number := 1, x := 300, y := 700, text := "B"
  , image_data := some "data:image/png;base64,&&&&", include_name := true
  , include_date := true, signed_at := "2024-02-02 11:00" }

/-- Witness for the amended C4: with one good and one undecodable placement
on the same page, the composite equals the composite without the bad
placement. -/
theorem C4_malformed_placement_skipped_witness :
    sign_pdf_bytes decW4 [pgW4] [goodW4, badW4] =
      sign_pdf_bytes decW4 [pgW4] [goodW4] :=
  C4_malformed_placement_skipped decW4 [pgW4] [goodW4] [] badW4
    ⟨"data:image/png;base64,&&&&", rfl, by decide,
     Or.inr ⟨"&&&&", by decide, by decide⟩⟩
